import Mathlib

/-!
Shallow embedding of `run.py`, a Streamlit application that keeps food
items in a SQLite table `food_items`, builds a meal-suggestion prompt for
an AI service, parses the returned suggestion text, and deletes the used
ingredients from the table.

Python strings are modelled as `List Char` (a Python `str` is a sequence
of Unicode code points).  The SQLite table is modelled as a
`List FoodItem` in insertion order.  External failures (a `sqlite3.Error`,
the AI call) are modelled by explicit parameters where a claim needs them.
-/

namespace RunApp

/-- `pat` is a prefix of `l` (character-wise equality). -/
def isPrefixList : List Char → List Char → Bool
  | [], _ => true
  | _ :: _, [] => false
  | a :: as, b :: bs => a == b && isPrefixList as bs

/-- Python `pat in l`: `pat` occurs as a contiguous substring of `l`. -/
def containsList (pat : List Char) : List Char → Bool
  | [] => isPrefixList pat []
  | c :: cs => isPrefixList pat (c :: cs) || containsList pat cs

/-- The suffix of `l` that follows the first occurrence of `pat`
(`[]` when `pat` does not occur). -/
def afterFirst (pat : List Char) : List Char → List Char
  | [] => []
  | c :: cs =>
    if isPrefixList pat (c :: cs) then (c :: cs).drop pat.length
    else afterFirst pat cs

/-- The part of `l` that precedes the first occurrence of `pat`
(all of `l` when `pat` does not occur). -/
def beforeFirst (pat : List Char) : List Char → List Char
  | [] => []
  | c :: cs =>
    if isPrefixList pat (c :: cs) then []
    else c :: beforeFirst pat cs

/-- Python `s.split(sep)` for a one-character separator: cut at every
occurrence, keeping empty fields. -/
def splitChar (sep : Char) : List Char → List (List Char)
  | [] => [[]]
  | c :: cs =>
    if c = sep then [] :: splitChar sep cs
    else
      match splitChar sep cs with
      | [] => [[c]]
      | f :: r => (c :: f) :: r

/-- Python `s.replace(a, rep)` for a one-character pattern. -/
def replaceChar (a : Char) (rep : List Char) : List Char → List Char
  | [] => []
  | c :: cs => (if c = a then rep else [c]) ++ replaceChar a rep cs

/-- The whitespace class of Python `str.strip()` (Unicode whitespace). -/
def isPySpace (c : Char) : Bool :=
  let n := c.toNat
  n = 0x20 || n = 0x9 || n = 0xa || n = 0xb || n = 0xc || n = 0xd ||
  (0x1c ≤ n && n ≤ 0x1f) || n = 0x85 || n = 0xa0 || n = 0x1680 ||
  (0x2000 ≤ n && n ≤ 0x200a) || n = 0x2028 || n = 0x2029 ||
  n = 0x202f || n = 0x205f || n = 0x3000

/-- Python `s.strip()`: remove leading and trailing whitespace. -/
def pyStrip (l : List Char) : List Char :=
  ((l.dropWhile isPySpace).reverse.dropWhile isPySpace).reverse

/-- One row of the `food_items` table (run.py lines 16-24).  `quantity`
is a SQLite REAL; no claim depends on float rounding, so it is modelled
as a rational number. -/
structure FoodItem where
  id : Nat
  name : List Char
  purchase_date : List Char
  expiry_date : List Char
  quantity : ℚ
  deriving DecidableEq, Repr

/-- A user-visible Streamlit message (`st.success`, `st.error`,
`st.warning`, `st.info`), carrying its displayed text. -/
inductive Msg where
  | success (text : List Char)
  | error (text : List Char)
  | warning (text : List Char)
  | info (text : List Char)
  deriving DecidableEq, Repr

/-- The AUTOINCREMENT primary key SQLite assigns to the next insert. -/
def nextId (db : List FoodItem) : Nat :=
  (db.map FoodItem.id).foldr max 0 + 1

/-- run.py lines 28-42, `add_ingredient_to_db`: INSERT one row. -/
def add_ingredient_to_db (db : List FoodItem)
    (name purchase_date expiry_date : List Char) (quantity : ℚ) :
    List FoodItem :=
  db ++ [⟨nextId db, name, purchase_date, expiry_date, quantity⟩]

/-- SQLite compares TEXT with the BINARY collation, i.e. by UTF-8 bytes;
UTF-8 byte order coincides with code-point order, so the ORDER BY key
comparison is lexicographic order on code points. -/
def lexLe : List Char → List Char → Bool
  | [], _ => true
  | _ :: _, [] => false
  | a :: as, b :: bs =>
    decide (a.toNat < b.toNat) || (decide (a.toNat = b.toNat) && lexLe as bs)

/-- Insert one row into a list that is sorted by expiry date. -/
def orderedInsertExpiry (x : FoodItem) : List FoodItem → List FoodItem
  | [] => [x]
  | y :: ys =>
    if lexLe x.expiry_date y.expiry_date then x :: y :: ys
    else y :: orderedInsertExpiry x ys

/-- run.py lines 44-51, `get_all_ingredients`:
`SELECT ... ORDER BY expiry_date ASC`, modelled as sorting the table by
the expiry-date key. -/
def get_all_ingredients (db : List FoodItem) : List FoodItem :=
  db.foldr orderedInsertExpiry []

/-- The case folding used by SQLite's default LIKE: only ASCII letters
are folded, all other code points compare exactly. -/
def foldAscii (c : Char) : Char :=
  if 'A' ≤ c ∧ c ≤ 'Z' then Char.ofNat (c.toNat + 32) else c

/-- Fuel-indexed SQLite LIKE matcher: `%` matches any sequence of
characters, `_` matches exactly one character, anything else matches a
single character up to ASCII case folding.  The fuel only serves to make
the recursion structural; every call site supplies enough fuel. -/
def likeMatchF : Nat → List Char → List Char → Bool
  | 0, _, _ => false
  | _ + 1, [], s => s.isEmpty
  | fuel + 1, p :: ps, [] =>
    if p = '%' then likeMatchF fuel ps [] else false
  | fuel + 1, p :: ps, c :: cs =>
    if p = '%' then likeMatchF fuel ps (c :: cs) || likeMatchF fuel (p :: ps) cs
    else (p == '_' || foldAscii p == foldAscii c) && likeMatchF fuel ps cs

/-- SQLite `string LIKE pattern` with the default (no ESCAPE) semantics. -/
def likeMatch (pat s : List Char) : Bool :=
  likeMatchF (pat.length + s.length + 1) pat s

/-- The pattern `f"%{s}%"` built by `delete_ingredient_from_db`. -/
def likePattern (s : List Char) : List Char :=
  '%' :: (s ++ ['%'])

/-- run.py lines 53-66, `delete_ingredient_from_db`:
`DELETE FROM food_items WHERE name LIKE ?` with pattern `f"%{s}%"`,
returning `cursor.rowcount` (the number of deleted rows).
`err = true` models a `sqlite3.Error` raised by `execute` or `commit`:
the handler shows `st.error` and returns 0, and since the transaction was
never committed SQLite rolls it back when the connection is closed, so
the table is unchanged. -/
def delete_ingredient_from_db (err : Bool) (ingredient_name_like : List Char)
    (db : List FoodItem) : List FoodItem × Nat × List Msg :=
  if err then
    (db, 0, [Msg.error "食材の削除中にエラーが発生しました: ".toList])
  else
    (db.filter (fun r => !likeMatch (likePattern ingredient_name_like) r.name),
     (db.filter (fun r => likeMatch (likePattern ingredient_name_like) r.name)).length,
     [])

/-- The label scanned for in the suggestion text (run.py line 219). -/
def ingredientLabel : List Char := "使用食材:".toList

/-- Embeds `line.split("使用食材:")[1]`.  Python `str.split` cuts at every
non-overlapping occurrence scanned from the left, so element 1 is the
segment after the first occurrence of the separator and before the next
occurrence (up to the end of the line when there is no second one). -/
def splitField1 (pat line : List Char) : List Char :=
  beforeFirst pat (afterFirst pat line)

/-- run.py lines 219-224, the body of the extraction loop for one line:
if the line mentions the label, take `line.split(label)[1].strip()`,
normalise `、` to `,`, remove ASCII spaces, split on `,`, keep the
non-empty fields, and strip each kept field. -/
def lineIngredients (line : List Char) : List (List Char) :=
  if containsList ingredientLabel line then
    ((splitChar ','
        (replaceChar ' ' []
          (replaceChar '、' [',']
            (pyStrip (splitField1 ingredientLabel line))))).filter
      (fun i => !i.isEmpty)).map pyStrip
  else
    []

/-- run.py lines 216-224: the set `used_ingredients` collected over all
lines of the suggestion text. -/
def extract_used_ingredients (text : List Char) : Finset (List Char) :=
  ((splitChar '\n' text).map lineIngredients).flatten.toFinset

/-- Claim C2's wording of the per-line extraction: it takes *the substring
after the label* (everything to the end of the line), then normalises,
removes spaces, splits on commas, and keeps the trimmed non-empty names. -/
def specLineIngredientsOrig (line : List Char) : Finset (List Char) :=
  if containsList ingredientLabel line then
    (((splitChar ','
        (replaceChar ' ' []
          (replaceChar '、' [',']
            (pyStrip (afterFirst ingredientLabel line))))).map pyStrip).filter
      (fun i => !i.isEmpty)).toFinset
  else ∅

/-- Claim C2's wording of the whole extraction: the union over all lines
of the per-line name sets. -/
def specExtractOrig (text : List Char) : Finset (List Char) :=
  ((splitChar '\n' text).map specLineIngredientsOrig).foldr (· ∪ ·) ∅

/-- The amended wording of the per-line extraction: the segment between
the first occurrence of the label and the next occurrence (if any),
stripped, normalised, split on commas; empty fields are dropped before
the final per-field strip (so a field of bare whitespace survives as the
empty name). -/
def specLineIngredientsAmended (line : List Char) : Finset (List Char) :=
  (lineIngredients line).toFinset

/-- The amended wording of the whole extraction: the union over all lines
of the amended per-line name sets. -/
def specExtractAmended (text : List Char) : Finset (List Char) :=
  ((splitChar '\n' text).map (fun line => specLineIngredientsAmended line)).foldr
    (· ∪ ·) ∅

/-- The numeric value of an ASCII digit. -/
def digitVal (c : Char) : Option Nat :=
  if '0' ≤ c ∧ c ≤ '9' then some (c.toNat - 48) else none

/-- Leap years of the proleptic Gregorian calendar used by `datetime`. -/
def isLeapYear (y : Nat) : Bool :=
  (y % 4 == 0 && y % 100 != 0) || y % 400 == 0

/-- Length of a month in the calendar used by `datetime`. -/
def daysInMonth (y m : Nat) : Nat :=
  if m = 2 then (if isLeapYear y then 29 else 28)
  else if m = 4 ∨ m = 6 ∨ m = 9 ∨ m = 11 then 30
  else 31

/-- CPython `_strptime` day directive `%d` at the end of the format
string: the regex `3[01]|[12]\d|0[1-9]|[1-9]` anchored at the end, i.e.
one or two digits with value 1..31.  When two digits remain, the
one-digit alternative cannot apply (it would leave a digit unconsumed),
so the choice is deterministic. -/
def parseDayTail : List Char → Option Nat
  | [a, b] =>
    match digitVal a, digitVal b with
    | some x, some y =>
      let d := 10 * x + y
      if 1 ≤ d ∧ d ≤ 31 then some d else none
    | _, _ => none
  | [a] =>
    match digitVal a with
    | some x => if 1 ≤ x then some x else none
    | none => none
  | _ => none

/-- CPython `_strptime` month directive `%m` (regex
`1[0-2]|0[1-9]|[1-9]`) followed by a literal `-` and the day field.
When the two characters after the month start are digits, the one-digit
alternative cannot apply (it would need `-` there), so the choice is
deterministic. -/
def parseMonthDay : List Char → Option (Nat × Nat)
  | a :: b :: '-' :: rest =>
    match digitVal a, digitVal b with
    | some x, some y =>
      let m := 10 * x + y
      if 1 ≤ m ∧ m ≤ 12 then (parseDayTail rest).map (fun d => (m, d)) else none
    | _, _ => none
  | a :: '-' :: rest =>
    match digitVal a with
    | some x => if 1 ≤ x then (parseDayTail rest).map (fun d => (x, d)) else none
    | none => none
  | _ => none

/-- `datetime.strptime(s, "%Y-%m-%d")` (run.py lines 130-131): `%Y` is
exactly four digits, `%m` and `%d` are one or two digits (zero padding
optional), the whole string must be consumed, and the result must be a
real calendar date with year at least 1 (`datetime` raises `ValueError`
otherwise).  Returns `none` where Python raises `ValueError`. -/
def strptimeYMD (s : List Char) : Option (Nat × Nat × Nat) :=
  match s with
  | a :: b :: c :: d :: '-' :: rest =>
    match digitVal a, digitVal b, digitVal c, digitVal d with
    | some w, some x, some y, some z =>
      let year := 1000 * w + 100 * x + 10 * y + z
      match parseMonthDay rest with
      | some (m, day) =>
        if 1 ≤ year ∧ day ≤ daysInMonth year m then some (year, m, day) else none
      | none => none
    | _, _, _, _ => none
  | _ => none

/-- The claims' notion of a valid `YYYY-MM-DD` ISO-8601 date string
(claims C3 and C6): exactly four digits, a dash, two digits, a dash,
two digits, naming a real calendar date.  This follows the claim's
words, for comparison with `strptimeYMD`, which is what the code runs. -/
def isISODate (s : List Char) : Bool :=
  match s with
  | [y1, y2, y3, y4, '-', m1, m2, '-', d1, d2] =>
    match digitVal y1, digitVal y2, digitVal y3, digitVal y4,
          digitVal m1, digitVal m2, digitVal d1, digitVal d2 with
    | some a, some b, some c, some d, some e, some f, some g, some h =>
      let year := 1000 * a + 100 * b + 10 * c + d
      let month := 10 * e + f
      let day := 10 * g + h
      decide (1 ≤ year) && decide (1 ≤ month) && decide (month ≤ 12) &&
        decide (1 ≤ day) && decide (day ≤ daysInMonth year month)
    | _, _, _, _, _, _, _, _ => false
  | _ => false

/-- Outcome of one submission of the add-ingredient form. -/
inductive SubmitResult where
  | success
  | warnMissing
  | errorFormat
  deriving DecidableEq, Repr

/-- run.py lines 125-139: the submit handler of the add-ingredient form.
`if not all([...])` rejects falsy fields (empty strings, a zero
quantity) with `st.warning`; then both dates are parsed with
`strptime("%Y-%m-%d")`, a `ValueError` being reported with `st.error`
and nothing inserted.  The quantity widget (run.py line 122) only emits
values of at least 0.01, which that argument is expected to satisfy. -/
def submitAdd (db : List FoodItem)
    (name purchase_date_str expiry_date_str : List Char) (quantity : ℚ) :
    List FoodItem × SubmitResult :=
  if name = [] ∨ purchase_date_str = [] ∨ expiry_date_str = [] ∨ quantity = 0 then
    (db, SubmitResult.warnMissing)
  else if (strptimeYMD purchase_date_str).isSome ∧ (strptimeYMD expiry_date_str).isSome then
    (add_ingredient_to_db db name purchase_date_str expiry_date_str quantity,
     SubmitResult.success)
  else
    (db, SubmitResult.errorFormat)

/-- Decimal digits of the fraction `num / den` with `0 ≤ num < den`,
rendered with fuel. -/
def fracDigits : Nat → Nat → Nat → List Char
  | 0, _, _ => []
  | fuel + 1, num, den =>
    if num = 0 then []
    else Char.ofNat (48 + num * 10 / den) :: fracDigits fuel (num * 10 % den) den

/-- The text Python's f-string interpolation produces for the REAL
`quantity`.  Exact float `repr` is not embeddable; this renders the
decimal value (integral values with a trailing `.0`), which agrees with
`repr` on the short decimal quantities the number widget produces.  No
claim depends on these digits. -/
def showQuantity (q : ℚ) : List Char :=
  (if q < 0 then ['-'] else []) ++
    (Nat.repr (q.num.natAbs / q.den)).toList ++ ['.'] ++
    (if q.num.natAbs % q.den = 0 then ['0']
     else fracDigits 17 (q.num.natAbs % q.den) q.den)

/-- run.py line 167: `f"{name} (期限: {expiry_date}, 数量: {quantity})"`. -/
def itemLine (r : FoodItem) : List Char :=
  r.name ++ " (期限: ".toList ++ r.expiry_date ++ ", 数量: ".toList ++
    showQuantity r.quantity ++ ")".toList

/-- Fixed template text of run.py lines 169-176 up to the serving-size
interpolation (16-space indentation as in the triple-quoted literal). -/
def promptPart1 : List Char :=
  ("\n                以下の食材を使用して、献立を提案してください。\n                提案は具体的なレシピ名、使用する食材、簡単な調理手順を含めてください。\n                献立検討時には以下リンクの情報を参考にして、提案する際にはURLを添付してください。\n                https://panasonic.jp/cooking/recipe/autocooker.html\n                https://cookpad.com/jp\n                期限が近い食材を優先的に使用してください。\n                分量: ").toList

/-- Fixed template text between the two preference interpolations. -/
def promptPart2 : List Char := ("\n                好み: ").toList

/-- Fixed template text between the preferences and the item list. -/
def promptPart3 : List Char := ("\n\n                食材リスト:\n                ").toList

/-- Fixed template text after the item list (run.py lines 182-186). -/
def promptPart4 : List Char :=
  ("\n\n                提案例:\n                レシピ名: 鶏肉と野菜の炒め物\n                使用食材: 鶏もも肉、玉ねぎ、ピーマン、にんじん\n                調理手順: 1. 鶏肉と野菜を切る。2. フライパンで炒める。3. 塩コショウで味を調える。\n                ").toList

/-- run.py lines 165-186: the prompt assembled from the ordered item
rows and the two preference fields.  Each row is rendered by `itemLine`,
the renderings are joined by `', '.join`, and an empty (falsy)
preference field falls back to `指定なし`. -/
def buildPrompt (items : List FoodItem) (serving_size preferences : List Char) :
    List Char :=
  promptPart1 ++ (if serving_size.isEmpty then "指定なし".toList else serving_size) ++
    promptPart2 ++ (if preferences.isEmpty then "指定なし".toList else preferences) ++
    promptPart3 ++ List.intercalate ", ".toList (items.map itemLine) ++
    promptPart4

/-- run.py lines 198-206: the placeholder suggestion used when the
Gemini model is unavailable (20-space indentation as in the literal). -/
def dummy_menu : List Char :=
  ("\n                    レシピ名: 鶏肉と野菜の彩り炒め (ダミー)\n                    使用食材: 鶏もも肉、玉ねぎ、ピーマン、にんじん、キャベツ\n                    調理手順: ダミーの調理手順です。\n\n                    レシピ名: 大根と豚バラの煮物 (ダミー)\n                    使用食材: 大根、豚バラ肉、生姜\n                    調理手順: ダミーの調理手順です。\n                    ").toList

/-- run.py lines 68-82, the module-level Gemini configuration: a model
object exists only when the `GOOGLE_API_KEY` environment variable is set
and `genai.configure` succeeds; otherwise `model = None`, error and info
messages are shown, and execution continues. -/
def gemini_model_available (google_api_key : Option (List Char))
    (configure_ok : Bool) : Bool :=
  match google_api_key with
  | none => false
  | some _ => configure_ok

/-- run.py lines 188-206: the suggestion text stored for display.
`api_response = none` models an exception raised by the Gemini call. -/
def suggest_menu (model_available : Bool) (api_response : Option (List Char)) :
    List Char :=
  if model_available then
    match api_response with
    | some t => t
    | none => "献立の生成に失敗しました。".toList
  else dummy_menu

/-- run.py lines 232-235: one `delete_ingredient_from_db` call per
extracted name, threading the table through and recording each call's
deleted-row count. -/
def confirmLoop : List (List Char) → List FoodItem →
    List FoodItem × List (List Char × Nat)
  | [], db => (db, [])
  | n :: ns, db =>
    let step := delete_ingredient_from_db false n db
    let rest := confirmLoop ns step.1
    (rest.1, (n, step.2.1) :: rest.2)

/-- The success text of run.py line 236. -/
def deleteMsgText (total : Nat) : List Char :=
  (Nat.repr total).toList ++ "個の食材がデータベースから削除されました。".toList

/-- The running total accumulated by run.py lines 232-235. -/
def totalDeleted (trace : List (List Char × Nat)) : Nat :=
  (trace.map Prod.snd).sum

/-- run.py lines 231-236: the confirmed-deletion handler.  Returns the
final table, the call trace (one entry per extracted name, with that
call's deleted-row count), and the messages shown to the user: a single
`st.success` carrying only the total. -/
def confirmDeletion (names : List (List Char)) (db : List FoodItem) :
    List FoodItem × List (List Char × Nat) × List Msg :=
  let r := confirmLoop names db
  (r.1, r.2, [Msg.success (deleteMsgText (totalDeleted r.2))])

/-- Claim C4's wording of the reporting: one per-name count message per
extracted name, followed by the total.  No such per-name message exists
in the code; this definition follows the claim's words, for comparison
with `confirmDeletion`. -/
def specReportMessages (trace : List (List Char × Nat)) : List Msg :=
  trace.map (fun p => Msg.info (p.1 ++ ": ".toList ++ (Nat.repr p.2).toList)) ++
    [Msg.success (deleteMsgText (totalDeleted trace))]

theorem likeMatchF_step_nil (F : Nat) (s : List Char) :
    likeMatchF (F + 1) [] s = s.isEmpty := by
  cases s <;> rfl

theorem likeMatchF_step_percent_nil (F : Nat) (ps : List Char) :
    likeMatchF (F + 1) ('%' :: ps) [] = likeMatchF F ps [] := rfl

theorem likeMatchF_step_percent_cons (F : Nat) (ps cs : List Char) (c : Char) :
    likeMatchF (F + 1) ('%' :: ps) (c :: cs) =
      (likeMatchF F ps (c :: cs) || likeMatchF F ('%' :: ps) cs) := rfl

theorem likeMatchF_step_lit_nil (F : Nat) (p : Char) (ps : List Char) (hp : p ≠ '%') :
    likeMatchF (F + 1) (p :: ps) [] = false := by
  simp only [likeMatchF, if_neg hp]

theorem likeMatchF_step_lit_cons (F : Nat) (p : Char) (ps cs : List Char) (c : Char)
    (hp : p ≠ '%') :
    likeMatchF (F + 1) (p :: ps) (c :: cs) =
      ((p == '_' || foldAscii p == foldAscii c) && likeMatchF F ps cs) := by
  simp only [likeMatchF, if_neg hp]

theorem likeMatchF_congr : ∀ (f g : Nat) (pat s : List Char),
    pat.length + s.length < f → pat.length + s.length < g →
    likeMatchF f pat s = likeMatchF g pat s := by
  intro f
  induction f with
  | zero => intro g pat s hf _; omega
  | succ f ih =>
    intro g pat s hf hg
    cases g with
    | zero => omega
    | succ g =>
      cases pat with
      | nil => rw [likeMatchF_step_nil, likeMatchF_step_nil]
      | cons p ps =>
        by_cases hp : p = '%'
        · subst hp
          cases s with
          | nil =>
            rw [likeMatchF_step_percent_nil, likeMatchF_step_percent_nil]
            exact ih g ps []
              (by simp only [List.length_cons, List.length_nil] at hf ⊢; omega)
              (by simp only [List.length_cons, List.length_nil] at hg ⊢; omega)
          | cons c cs =>
            rw [likeMatchF_step_percent_cons, likeMatchF_step_percent_cons]
            rw [ih g ps (c :: cs)
                  (by simp only [List.length_cons] at hf ⊢; omega)
                  (by simp only [List.length_cons] at hg ⊢; omega),
                ih g ('%' :: ps) cs
                  (by simp only [List.length_cons] at hf ⊢; omega)
                  (by simp only [List.length_cons] at hg ⊢; omega)]
        · cases s with
          | nil =>
            rw [likeMatchF_step_lit_nil _ _ _ hp, likeMatchF_step_lit_nil _ _ _ hp]
          | cons c cs =>
            rw [likeMatchF_step_lit_cons _ _ _ _ _ hp,
                likeMatchF_step_lit_cons _ _ _ _ _ hp]
            rw [ih g ps cs
                  (by simp only [List.length_cons] at hf ⊢; omega)
                  (by simp only [List.length_cons] at hg ⊢; omega)]

theorem likeMatch_eq_likeMatchF (pat s : List Char) (f : Nat)
    (h : pat.length + s.length < f) : likeMatch pat s = likeMatchF f pat s :=
  likeMatchF_congr _ _ _ _ (by omega) h

theorem likeMatch_percent_nil (ps : List Char) :
    likeMatch ('%' :: ps) [] = likeMatch ps [] := by
  rw [likeMatch_eq_likeMatchF ('%' :: ps) [] ((ps.length + 1) + 1)
        (by simp only [List.length_cons, List.length_nil]; omega),
      likeMatchF_step_percent_nil,
      ← likeMatch_eq_likeMatchF ps [] (ps.length + 1)
        (by simp only [List.length_nil]; omega)]

theorem likeMatch_percent_cons (ps cs : List Char) (c : Char) :
    likeMatch ('%' :: ps) (c :: cs) =
      (likeMatch ps (c :: cs) || likeMatch ('%' :: ps) cs) := by
  rw [likeMatch_eq_likeMatchF ('%' :: ps) (c :: cs) ((ps.length + cs.length + 2) + 1)
        (by simp only [List.length_cons]; omega),
      likeMatchF_step_percent_cons,
      ← likeMatch_eq_likeMatchF ps (c :: cs) (ps.length + cs.length + 2)
        (by simp only [List.length_cons]; omega),
      ← likeMatch_eq_likeMatchF ('%' :: ps) cs (ps.length + cs.length + 2)
        (by simp only [List.length_cons]; omega)]

theorem likeMatch_lit_nil (p : Char) (ps : List Char) (hp : p ≠ '%') :
    likeMatch (p :: ps) [] = false := by
  rw [likeMatch_eq_likeMatchF (p :: ps) [] ((ps.length + 1) + 1)
        (by simp only [List.length_cons, List.length_nil]; omega),
      likeMatchF_step_lit_nil _ _ _ hp]

theorem likeMatch_lit_cons (p : Char) (ps cs : List Char) (c : Char) (hp : p ≠ '%') :
    likeMatch (p :: ps) (c :: cs) =
      ((p == '_' || foldAscii p == foldAscii c) && likeMatch ps cs) := by
  rw [likeMatch_eq_likeMatchF (p :: ps) (c :: cs) ((ps.length + cs.length + 2) + 1)
        (by simp only [List.length_cons]; omega),
      likeMatchF_step_lit_cons _ _ _ _ _ hp,
      ← likeMatch_eq_likeMatchF ps cs (ps.length + cs.length + 2) (by omega)]

theorem likeMatch_percent_iff (ps : List Char) : ∀ cs : List Char,
    likeMatch ('%' :: ps) cs = true ↔
      ∃ n, n ≤ cs.length ∧ likeMatch ps (cs.drop n) = true := by
  intro cs
  induction cs with
  | nil =>
    rw [likeMatch_percent_nil]
    constructor
    · intro h; exact ⟨0, Nat.le_refl 0, h⟩
    · rintro ⟨n, hn, h⟩
      have hz : n = 0 := Nat.le_zero.mp hn
      subst hz; exact h
  | cons c cs ih =>
    rw [likeMatch_percent_cons]
    simp only [Bool.or_eq_true]
    constructor
    · rintro (h | h)
      · exact ⟨0, Nat.zero_le _, h⟩
      · obtain ⟨n, hn, h2⟩ := ih.mp h
        exact ⟨n + 1, by simpa using Nat.succ_le_succ hn, by simpa using h2⟩
    · rintro ⟨n, hn, h⟩
      cases n with
      | zero => exact Or.inl h
      | succ n =>
        exact Or.inr (ih.mpr ⟨n, by simpa using hn, by simpa using h⟩)

theorem likeMatch_percent_end : ∀ cs : List Char, likeMatch ['%'] cs = true := by
  intro cs
  induction cs with
  | nil => decide
  | cons c cs ih =>
    rw [likeMatch_percent_cons]
    simp [ih]

theorem likeMatch_lit_append_percent : ∀ s : List Char,
    (∀ c ∈ s, c ≠ '%' ∧ c ≠ '_') → ∀ cs : List Char,
    likeMatch (s ++ ['%']) cs = isPrefixList (s.map foldAscii) (cs.map foldAscii) := by
  intro s
  induction s with
  | nil =>
    intro _ cs
    simp only [List.nil_append, List.map_nil]
    rw [likeMatch_percent_end cs]
    rfl
  | cons a s ih =>
    intro hs cs
    have ha := hs a (List.mem_cons_self a s)
    cases cs with
    | nil =>
      rw [List.cons_append, likeMatch_lit_nil _ _ ha.1]
      rfl
    | cons c cs2 =>
      rw [List.cons_append, likeMatch_lit_cons _ _ _ _ ha.1]
      have hne : (a == '_') = false := by
        simp only [beq_eq_false_iff_ne, ne_eq]; exact ha.2
      rw [hne, Bool.false_or,
          ih (fun c hc => hs c (List.mem_cons_of_mem _ hc)) cs2]
      rfl

theorem containsList_iff (pat : List Char) : ∀ l : List Char,
    containsList pat l = true ↔
      ∃ n, n ≤ l.length ∧ isPrefixList pat (l.drop n) = true := by
  intro l
  induction l with
  | nil =>
    simp only [containsList, List.length_nil]
    constructor
    · intro h; exact ⟨0, Nat.le_refl 0, h⟩
    · rintro ⟨n, hn, h⟩
      have hz : n = 0 := Nat.le_zero.mp hn
      subst hz; exact h
  | cons c cs ih =>
    simp only [containsList, Bool.or_eq_true]
    constructor
    · rintro (h | h)
      · exact ⟨0, Nat.zero_le _, h⟩
      · obtain ⟨n, hn, h2⟩ := ih.mp h
        exact ⟨n + 1, by simpa using Nat.succ_le_succ hn, by simpa using h2⟩
    · rintro ⟨n, hn, h⟩
      cases n with
      | zero => exact Or.inl h
      | succ n =>
        exact Or.inr (ih.mpr ⟨n, by simpa using hn, by simpa using h⟩)

theorem likeMatch_likePattern_iff (s : List Char)
    (hs : ∀ c ∈ s, c ≠ '%' ∧ c ≠ '_') (name : List Char) :
    likeMatch (likePattern s) name = true ↔
      containsList (s.map foldAscii) (name.map foldAscii) = true := by
  rw [likePattern, likeMatch_percent_iff, containsList_iff]
  constructor
  · rintro ⟨n, hn, h⟩
    rw [likeMatch_lit_append_percent s hs] at h
    refine ⟨n, by simpa using hn, ?_⟩
    rwa [List.map_drop] at h
  · rintro ⟨n, hn, h⟩
    refine ⟨n, by simpa using hn, ?_⟩
    rw [likeMatch_lit_append_percent s hs, List.map_drop]
    exact h

/-- C1 (amended): for a substring free of the wildcard characters `%`
and `_`, deletion removes exactly the rows whose name contains the
substring up to ASCII case folding, keeps every other row unchanged, and
returns the number of removed rows. -/
theorem C1_delete_substring_amended (s : List Char) (db : List FoodItem)
    (hs : ∀ c ∈ s, c ≠ '%' ∧ c ≠ '_') :
    delete_ingredient_from_db false s db =
      (db.filter (fun r => !containsList (s.map foldAscii) (r.name.map foldAscii)),
       (db.filter (fun r => containsList (s.map foldAscii) (r.name.map foldAscii))).length,
       []) := by
  have hpt : ∀ r : FoodItem,
      likeMatch (likePattern s) r.name =
        containsList (s.map foldAscii) (r.name.map foldAscii) := fun r =>
    Bool.coe_iff_coe.mp (likeMatch_likePattern_iff s hs r.name)
  have e1 : db.filter (fun r => !likeMatch (likePattern s) r.name) =
      db.filter (fun r => !containsList (s.map foldAscii) (r.name.map foldAscii)) :=
    List.filter_congr (fun r _ => by rw [hpt r])
  have e2 : db.filter (fun r => likeMatch (likePattern s) r.name) =
      db.filter (fun r => containsList (s.map foldAscii) (r.name.map foldAscii)) :=
    List.filter_congr (fun r _ => hpt r)
  show (db.filter (fun r => !likeMatch (likePattern s) r.name),
        (db.filter (fun r => likeMatch (likePattern s) r.name)).length,
        ([] : List Msg)) = _
  rw [e1, e2]

/-- C1 (counterexample): with substring `a` and a single row named `A`,
the code deletes the row (SQLite LIKE folds ASCII case) although `A`
does not contain `a` as a case-sensitive literal substring, so deletion
is not case-sensitive literal substring matching. -/
theorem C1_counterexample :
    delete_ingredient_from_db false "a".toList [⟨1, "A".toList, [], [], 1⟩] ≠
        (([⟨1, "A".toList, [], [], 1⟩] :
            List FoodItem).filter (fun r => !containsList "a".toList r.name),
         (([⟨1, "A".toList, [], [], 1⟩] :
            List FoodItem).filter (fun r => containsList "a".toList r.name)).length,
         []) ∧
      delete_ingredient_from_db false "a".toList [⟨1, "A".toList, [], [], 1⟩] =
        ([], 1, []) ∧
      containsList "a".toList "A".toList = false := by decide

/-- C1 (witness). -/
theorem C1_witness :
    (∀ c ∈ "ab".toList, c ≠ '%' ∧ c ≠ '_') ∧
      delete_ingredient_from_db false "ab".toList
          [⟨1, "xAB".toList, [], [], 1⟩, ⟨2, "cd".toList, [], [], 1⟩] =
        ([⟨2, "cd".toList, [], [], 1⟩], 1, []) :=
  ⟨by decide,
    (C1_delete_substring_amended "ab".toList
        [⟨1, "xAB".toList, [], [], 1⟩, ⟨2, "cd".toList, [], [], 1⟩]
        (by decide)).trans (by decide)⟩

theorem likeMatch_empty_pattern (cs : List Char) :
    likeMatch (likePattern []) cs = true := by
  rw [likePattern, List.nil_append, likeMatch_percent_iff]
  exact ⟨0, Nat.zero_le _, likeMatch_percent_end cs⟩

/-- C9: the deletion operation matches names with SQL LIKE on the
pattern `'%' + s + '%'`; in particular the empty substring deletes every
row (returning the full row count), and `_` and `%` inside the substring
act as wildcards, deleting rows whose name does not contain the
substring literally. -/
theorem C9_like_wildcards :
    (∀ (s : List Char) (db : List FoodItem),
      delete_ingredient_from_db false s db =
        (db.filter (fun r => !likeMatch (likePattern s) r.name),
         (db.filter (fun r => likeMatch (likePattern s) r.name)).length, [])) ∧
    (∀ db : List FoodItem,
      delete_ingredient_from_db false [] db = ([], db.length, [])) ∧
    (delete_ingredient_from_db false "a_c".toList [⟨1, "xabc".toList, [], [], 1⟩] =
        ([], 1, []) ∧
      containsList "a_c".toList "xabc".toList = false) ∧
    (delete_ingredient_from_db false "a%c".toList [⟨1, "axxxc".toList, [], [], 1⟩] =
        ([], 1, []) ∧
      containsList "a%c".toList "axxxc".toList = false) := by
  refine ⟨fun s db => rfl, fun db => ?_, by decide, by decide⟩
  have e1 : db.filter (fun r => !likeMatch (likePattern []) r.name) = [] := by
    rw [List.filter_eq_nil_iff]
    intro r _
    rw [likeMatch_empty_pattern r.name]
    decide
  have e2 : db.filter (fun r => likeMatch (likePattern []) r.name) = db :=
    List.filter_eq_self.mpr (fun r _ => likeMatch_empty_pattern r.name)
  show (db.filter (fun r => !likeMatch (likePattern []) r.name),
        (db.filter (fun r => likeMatch (likePattern []) r.name)).length,
        ([] : List Msg)) = _
  rw [e1, e2]

/-- C8: when a storage error occurs during deletion, the table is
unchanged (the uncommitted transaction is rolled back when the
connection closes), an error message is shown, and the returned count
is 0. -/
theorem C8_storage_error_aborts (s : List Char) (db : List FoodItem) :
    (delete_ingredient_from_db true s db).1 = db ∧
      (delete_ingredient_from_db true s db).2.1 = 0 ∧
      (delete_ingredient_from_db true s db).2.2 =
        [Msg.error "食材の削除中にエラーが発生しました: ".toList] :=
  ⟨rfl, rfl, rfl⟩

theorem lexLe_total (a b : List Char) : lexLe a b = true ∨ lexLe b a = true := by
  induction a generalizing b with
  | nil => exact Or.inl rfl
  | cons x xs ih =>
    cases b with
    | nil => exact Or.inr rfl
    | cons y ys =>
      simp only [lexLe, Bool.or_eq_true, Bool.and_eq_true, decide_eq_true_eq]
      rcases Nat.lt_trichotomy x.toNat y.toNat with h | h | h
      · exact Or.inl (Or.inl h)
      · rcases ih ys with h2 | h2
        · exact Or.inl (Or.inr ⟨h, h2⟩)
        · exact Or.inr (Or.inr ⟨h.symm, h2⟩)
      · exact Or.inr (Or.inl h)

theorem lexLe_trans : ∀ {a b c : List Char},
    lexLe a b = true → lexLe b c = true → lexLe a c = true := by
  intro a
  induction a with
  | nil => intro b c _ _; rfl
  | cons x xs ih =>
    intro b c h1 h2
    cases b with
    | nil => simp [lexLe] at h1
    | cons y ys =>
      cases c with
      | nil => simp [lexLe] at h2
      | cons z zs =>
        simp only [lexLe, Bool.or_eq_true, Bool.and_eq_true, decide_eq_true_eq]
          at h1 h2 ⊢
        rcases h1 with h1 | ⟨e1, r1⟩
        · rcases h2 with h2 | ⟨e2, r2⟩
          · exact Or.inl (Nat.lt_trans h1 h2)
          · exact Or.inl (by omega)
        · rcases h2 with h2 | ⟨e2, r2⟩
          · exact Or.inl (by omega)
          · exact Or.inr ⟨by omega, ih r1 r2⟩

theorem mem_orderedInsertExpiry {a x : FoodItem} : ∀ {l : List FoodItem},
    a ∈ orderedInsertExpiry x l ↔ a = x ∨ a ∈ l := by
  intro l
  induction l with
  | nil => simp [orderedInsertExpiry]
  | cons y ys ih =>
    rw [orderedInsertExpiry]
    by_cases h : lexLe x.expiry_date y.expiry_date = true
    · rw [if_pos h]
      simp [List.mem_cons]
    · rw [if_neg h]
      simp only [List.mem_cons, ih]
      tauto

theorem pairwise_orderedInsertExpiry {x : FoodItem} : ∀ {l : List FoodItem},
    l.Pairwise (fun a b => lexLe a.expiry_date b.expiry_date = true) →
    (orderedInsertExpiry x l).Pairwise
      (fun a b => lexLe a.expiry_date b.expiry_date = true) := by
  intro l
  induction l with
  | nil => intro _; simp [orderedInsertExpiry]
  | cons y ys ih =>
    intro h
    rw [List.pairwise_cons] at h
    rw [orderedInsertExpiry]
    by_cases hxy : lexLe x.expiry_date y.expiry_date = true
    · rw [if_pos hxy, List.pairwise_cons]
      refine ⟨?_, List.pairwise_cons.mpr h⟩
      intro b hb
      rcases List.mem_cons.mp hb with rfl | hb
      · exact hxy
      · exact lexLe_trans hxy (h.1 b hb)
    · rw [if_neg hxy, List.pairwise_cons]
      have hyx : lexLe y.expiry_date x.expiry_date = true := by
        rcases lexLe_total x.expiry_date y.expiry_date with h' | h'
        · exact absurd h' hxy
        · exact h'
      refine ⟨?_, ih h.2⟩
      intro b hb
      rcases mem_orderedInsertExpiry.mp hb with rfl | hb
      · exact hyx
      · exact h.1 b hb

theorem mem_get_all_ingredients {a : FoodItem} : ∀ {db : List FoodItem},
    a ∈ get_all_ingredients db ↔ a ∈ db := by
  intro db
  induction db with
  | nil => simp [get_all_ingredients]
  | cons x xs ih =>
    show a ∈ orderedInsertExpiry x (get_all_ingredients xs) ↔ _
    rw [mem_orderedInsertExpiry, ih]
    simp [List.mem_cons, eq_comm]

theorem pairwise_get_all_ingredients : ∀ db : List FoodItem,
    (get_all_ingredients db).Pairwise
      (fun a b => lexLe a.expiry_date b.expiry_date = true) := by
  intro db
  induction db with
  | nil => simp [get_all_ingredients]
  | cons x xs ih => exact pairwise_orderedInsertExpiry ih

/-- C3: after inserting a row with valid ISO dates and positive
quantity, the listed inventory contains that row, and the listing is
always sorted by expiry date in ascending (SQLite BINARY) order. -/
theorem C3_add_then_list (db : List FoodItem) (name pd ed : List Char) (q : ℚ)
    (h1 : isISODate pd = true) (h2 : isISODate ed = true) (h3 : 0 < q) :
    (∃ r ∈ get_all_ingredients (add_ingredient_to_db db name pd ed q),
        r.name = name ∧ r.purchase_date = pd ∧ r.expiry_date = ed ∧
          r.quantity = q) ∧
    (get_all_ingredients (add_ingredient_to_db db name pd ed q)).Pairwise
      (fun a b => lexLe a.expiry_date b.expiry_date = true) := by
  constructor
  · refine ⟨⟨nextId db, name, pd, ed, q⟩, ?_, rfl, rfl, rfl, rfl⟩
    rw [mem_get_all_ingredients, add_ingredient_to_db]
    simp
  · exact pairwise_get_all_ingredients _

/-- C3 (witness). -/
theorem C3_witness :
    isISODate "2025-01-02".toList = true ∧ isISODate "2025-01-09".toList = true ∧
      (0 : ℚ) < 1 ∧
      ((∃ r ∈ get_all_ingredients (add_ingredient_to_db [] "carrot".toList
            "2025-01-02".toList "2025-01-09".toList 1),
          r.name = "carrot".toList ∧ r.purchase_date = "2025-01-02".toList ∧
            r.expiry_date = "2025-01-09".toList ∧ r.quantity = 1) ∧
        (get_all_ingredients (add_ingredient_to_db [] "carrot".toList
            "2025-01-02".toList "2025-01-09".toList 1)).Pairwise
          (fun a b => lexLe a.expiry_date b.expiry_date = true)) :=
  ⟨by decide, by decide, by simp,
    C3_add_then_list [] "carrot".toList "2025-01-02".toList "2025-01-09".toList 1
      (by decide) (by decide) (by simp)⟩

/-- C6 (amended): a submission whose purchase or expiry date is not
accepted by `strptime("%Y-%m-%d")` (four-digit year, one- or two-digit
month and day, calendar-validated) is rejected with an inline message
and no row is inserted; a zero quantity is likewise rejected by the
falsy-field check.  (Non-positive or non-numeric quantities other than 0
cannot be submitted: the number widget enforces a numeric value of at
least 0.01.) -/
theorem C6_rejects_bad_input :
    (∀ (db : List FoodItem) (name pd ed : List Char) (q : ℚ),
      (strptimeYMD pd).isNone ∨ (strptimeYMD ed).isNone →
        (submitAdd db name pd ed q).1 = db ∧
          (submitAdd db name pd ed q).2 ≠ SubmitResult.success) ∧
    (∀ (db : List FoodItem) (name pd ed : List Char),
      (submitAdd db name pd ed 0).1 = db ∧
        (submitAdd db name pd ed 0).2 ≠ SubmitResult.success) := by
  constructor
  · intro db name pd ed q h
    rw [submitAdd]
    by_cases hm : name = [] ∨ pd = [] ∨ ed = [] ∨ q = 0
    · rw [if_pos hm]
      exact ⟨rfl, by simp⟩
    · rw [if_neg hm]
      have hps : ¬((strptimeYMD pd).isSome ∧ (strptimeYMD ed).isSome) := by
        rcases h with h | h
        · intro hc
          rw [Option.isNone_iff_eq_none] at h
          rw [h] at hc
          exact absurd hc.1 (by decide)
        · intro hc
          rw [Option.isNone_iff_eq_none] at h
          rw [h] at hc
          exact absurd hc.2 (by decide)
      rw [if_neg hps]
      exact ⟨rfl, by simp⟩
  · intro db name pd ed
    rw [submitAdd, if_pos (Or.inr (Or.inr (Or.inr rfl)))]
    exact ⟨rfl, by simp⟩

/-- C6 (counterexample): `2024-1-5` is not a valid `YYYY-MM-DD` ISO
date, yet submitting it with an otherwise valid form inserts a row and
succeeds, because `strptime("%Y-%m-%d")` accepts non-zero-padded month
and day fields. -/
theorem C6_counterexample :
    isISODate "2024-1-5".toList = false ∧
      submitAdd [] "x".toList "2024-1-5".toList "2024-01-10".toList 1 =
        ([⟨1, "x".toList, "2024-1-5".toList, "2024-01-10".toList, 1⟩],
         SubmitResult.success) := by decide

/-- C6 (witness). -/
theorem C6_witness :
    ((strptimeYMD "2024-13-01".toList).isNone ∨
        (strptimeYMD "2024-01-10".toList).isNone) ∧
      (submitAdd [] "x".toList "2024-13-01".toList "2024-01-10".toList 1).1 = [] ∧
      (submitAdd [] "x".toList "2024-13-01".toList "2024-01-10".toList 1).2 ≠
        SubmitResult.success :=
  ⟨Or.inl (by decide),
    C6_rejects_bad_input.1 [] "x".toList "2024-13-01".toList "2024-01-10".toList 1
      (Or.inl (by decide))⟩

/-- C5: when the `GOOGLE_API_KEY` environment variable is absent, no
model is configured, every suggestion request yields exactly the
placeholder text, and that placeholder is non-empty; the suggestion
path is a total function, so no unhandled error can escape it. -/
theorem C5_missing_key_placeholder :
    (∀ ok : Bool, gemini_model_available none ok = false) ∧
    (∀ (ok : Bool) (resp : Option (List Char)),
        suggest_menu (gemini_model_available none ok) resp = dummy_menu) ∧
    dummy_menu ≠ [] :=
  ⟨fun _ => rfl, fun _ _ => rfl, by decide⟩

/-- C7: the prompt builder is a pure function: it always equals the
fixed template with the serving-size and preference fields (defaulted to
`指定なし` when empty) and the comma-joined item lines substituted in
order, each item rendered as `name (期限: expiry, 数量: quantity)`; equal
inputs give the identical string. -/
theorem C7_prompt_deterministic :
    (∀ (items : List FoodItem) (ss pf : List Char),
      buildPrompt items ss pf =
        promptPart1 ++ (if ss.isEmpty then "指定なし".toList else ss) ++
          promptPart2 ++ (if pf.isEmpty then "指定なし".toList else pf) ++
          promptPart3 ++ List.intercalate ", ".toList (items.map itemLine) ++
          promptPart4) ∧
    (∀ r : FoodItem,
      itemLine r = r.name ++ " (期限: ".toList ++ r.expiry_date ++
        ", 数量: ".toList ++ showQuantity r.quantity ++ ")".toList) ∧
    (∀ (i1 i2 : List FoodItem) (s1 s2 p1 p2 : List Char),
      i1 = i2 → s1 = s2 → p1 = p2 →
        buildPrompt i1 s1 p1 = buildPrompt i2 s2 p2) :=
  ⟨fun _ _ _ => rfl, fun _ => rfl,
    fun _ _ _ _ _ _ hi hs hp => by rw [hi, hs, hp]⟩

/-- C7 (witness). -/
theorem C7_witness :
    buildPrompt [] "2人分".toList [] = buildPrompt [] "2人分".toList [] :=
  C7_prompt_deterministic.2.2 [] [] "2人分".toList "2人分".toList [] [] rfl rfl rfl

theorem mem_replaceChar_empty {a c : Char} : ∀ {l : List Char},
    c ∈ replaceChar a [] l → c ≠ a := by
  intro l
  induction l with
  | nil => intro h; simp [replaceChar] at h
  | cons x xs ih =>
    intro h
    rw [replaceChar] at h
    by_cases hx : x = a
    · rw [if_pos hx, List.nil_append] at h
      exact ih h
    · rw [if_neg hx] at h
      rcases List.mem_append.mp h with h | h
      · rw [List.mem_singleton] at h
        subst h; exact hx
      · exact ih h

theorem splitChar_ne_nil (sep : Char) : ∀ l : List Char, splitChar sep l ≠ [] := by
  intro l
  cases l with
  | nil => simp [splitChar]
  | cons c cs =>
    rw [splitChar]
    by_cases h : c = sep
    · rw [if_pos h]; simp
    · rw [if_neg h]
      cases hh : splitChar sep cs <;> simp

theorem mem_of_mem_splitChar {sep : Char} : ∀ {l f : List Char} {c : Char},
    f ∈ splitChar sep l → c ∈ f → c ∈ l := by
  intro l
  induction l with
  | nil =>
    intro f c hf hc
    simp only [splitChar, List.mem_singleton] at hf
    subst hf; simp at hc
  | cons x xs ih =>
    intro f c hf hc
    rw [splitChar] at hf
    by_cases hx : x = sep
    · rw [if_pos hx] at hf
      rcases List.mem_cons.mp hf with rfl | hf
      · simp at hc
      · exact List.mem_cons_of_mem _ (ih hf hc)
    · rw [if_neg hx] at hf
      cases hh : splitChar sep xs with
      | nil => exact absurd hh (splitChar_ne_nil sep xs)
      | cons f0 r =>
        rw [hh] at hf
        rcases List.mem_cons.mp hf with rfl | hf
        · rcases List.mem_cons.mp hc with rfl | hc
          · exact List.mem_cons_self _ _
          · exact List.mem_cons_of_mem _
              (ih (by rw [hh]; exact List.mem_cons_self _ _) hc)
        · exact List.mem_cons_of_mem _
            (ih (by rw [hh]; exact List.mem_cons_of_mem _ hf) hc)

theorem mem_pyStrip_subset {c : Char} {l : List Char} (h : c ∈ pyStrip l) :
    c ∈ l := by
  rw [pyStrip, List.mem_reverse] at h
  have h2 := (List.dropWhile_sublist _).subset h
  rw [List.mem_reverse] at h2
  exact (List.dropWhile_sublist _).subset h2

/-- C2 (counterexample): on a line in which the label occurs twice, the
code keeps only the segment before the second occurrence (and a
whitespace-only field yields an empty name), so the extracted set
differs from the claim's description, which takes everything after the
label and keeps only non-empty trimmed names. -/
theorem C2_counterexample :
    containsList ingredientLabel "使用食材:x,\t,y使用食材:z".toList = true ∧
      extract_used_ingredients "使用食材:x,\t,y使用食材:z".toList ≠
        specExtractOrig "使用食材:x,\t,y使用食材:z".toList ∧
      extract_used_ingredients "使用食材:x,\t,y使用食材:z".toList =
        {"x".toList, "".toList, "y".toList} ∧
      specExtractOrig "使用食材:x,\t,y使用食材:z".toList =
        {"x".toList, "y使用食材:z".toList} := by decide

/-- C2 (amended): for every suggestion text, the extracted set equals
the union over the lines containing the label of the names obtained by
taking the segment after the first label occurrence and before the next
one (if any), trimming it, normalising `、` to `,`, removing spaces,
splitting on commas, dropping empty fields, and trimming each kept field
(which may leave an empty name when a field was bare whitespace); in
particular the text `使用食材: 鶏もも肉、玉ねぎ` yields
`{鶏もも肉, 玉ねぎ}`. -/
theorem C2_extraction_amended :
    (∀ text : List Char,
      extract_used_ingredients text = specExtractAmended text) ∧
      extract_used_ingredients "使用食材: 鶏もも肉、玉ねぎ".toList =
        {"鶏もも肉".toList, "玉ねぎ".toList} := by
  constructor
  · intro text
    rw [extract_used_ingredients, specExtractAmended]
    generalize splitChar '\n' text = lines
    induction lines with
    | nil => rfl
    | cons l ls ih =>
      simp only [List.map_cons, List.flatten_cons, List.toFinset_append,
        List.foldr_cons]
      rw [← ih, specLineIngredientsAmended]
  · decide

/-- C10: every name in the extracted set is free of space characters —
the parser removes every ASCII space from the labelled segment before
splitting — so an ingredient written with internal spaces comes out with
its words concatenated, e.g. `使用食材: 鶏 もも 肉` yields `{鶏もも肉}`. -/
theorem C10_names_have_no_spaces :
    (∀ text n : List Char, n ∈ extract_used_ingredients text → ' ' ∉ n) ∧
      extract_used_ingredients "使用食材: 鶏 もも 肉".toList =
        {"鶏もも肉".toList} := by
  constructor
  · intro text n hn hsp
    rw [extract_used_ingredients, List.mem_toFinset, List.mem_flatten] at hn
    obtain ⟨part, hpart, hnp⟩ := hn
    rw [List.mem_map] at hpart
    obtain ⟨line, hline, rfl⟩ := hpart
    rw [lineIngredients] at hnp
    by_cases hl : containsList ingredientLabel line = true
    · rw [if_pos hl] at hnp
      rw [List.mem_map] at hnp
      obtain ⟨i, hi, rfl⟩ := hnp
      rw [List.mem_filter] at hi
      have h1 : ' ' ∈ i := mem_pyStrip_subset hsp
      have h2 := mem_of_mem_splitChar hi.1 h1
      exact mem_replaceChar_empty h2 rfl
    · rw [if_neg hl] at hnp
      exact absurd hnp (List.not_mem_nil _)
  · decide

/-- C10 (witness). -/
theorem C10_witness :
    "鶏もも肉".toList ∈ extract_used_ingredients "使用食材: 鶏 もも 肉".toList ∧
      ' ' ∉ "鶏もも肉".toList :=
  ⟨by decide,
    C10_names_have_no_spaces.1 "使用食材: 鶏 もも 肉".toList "鶏もも肉".toList
      (by decide)⟩

theorem confirmLoop_trace_names : ∀ (names : List (List Char)) (db : List FoodItem),
    (confirmLoop names db).2.map Prod.fst = names := by
  intro names
  induction names with
  | nil => intro db; rfl
  | cons n ns ih =>
    intro db
    simp only [confirmLoop, List.map_cons]
    rw [ih]

theorem confirmLoop_trace_length : ∀ (names : List (List Char)) (db : List FoodItem),
    (confirmLoop names db).2.length = names.length := by
  intro names
  induction names with
  | nil => intro db; rfl
  | cons n ns ih =>
    intro db
    simp only [confirmLoop, List.length_cons]
    rw [ih]

/-- C4 (amended): confirming a suggestion invokes the deletion operation
exactly once per extracted name, in order, and reports one success
message carrying only the total deletion count (the sum of the per-call
counts); no per-name count is reported. -/
theorem C4_per_name_calls_total_reported (names : List (List Char))
    (db : List FoodItem) :
    ((confirmDeletion names db).2.1.map Prod.fst = names) ∧
    ((confirmDeletion names db).2.1.length = names.length) ∧
    ((confirmDeletion names db).2.2 =
      [Msg.success (deleteMsgText (totalDeleted (confirmDeletion names db).2.1))]) :=
  ⟨confirmLoop_trace_names names db, confirmLoop_trace_length names db, rfl⟩

/-- C4 (counterexample): with two extracted names the handler emits a
single message carrying only the total count — fewer messages than the
per-name-and-total reporting the claim describes. -/
theorem C4_counterexample :
    (confirmDeletion ["a".toList, "b".toList] []).2.2 ≠
        specReportMessages (confirmDeletion ["a".toList, "b".toList] []).2.1 ∧
      (confirmDeletion ["a".toList, "b".toList] []).2.2.length = 1 ∧
      (confirmDeletion ["a".toList, "b".toList] []).2.1.length = 2 := by decide

end RunApp
